import Mathlib

/-!
# Non-IID entropy assessment driver (`src/cpp/non_iid_main.cpp`)

A shallow embedding of `estimate` and `main` of the command-line driver, and the
properties of the aggregation protocol proved about them.

Conventions of the embedding.

* `double` values are rationals: the driver only compares, takes minima and multiplies
  by `word_size`, so the order-theoretic content of the code is kept; rounding and NaN are
  outside the model.
* `int`/`long` values are integers without wrap-around, except where the source converts
  to an unsigned type (the `bits_per_symbol` argument), where the reduction modulo `2^64`
  is explicit.
* The ten estimators, `read_file_subset`, `MIN_SIZE` and `ULONG_MAX` come from headers that
  are not part of this file of the repository; they are parameters.
* Output and calls with an observable effect are recorded, in program order, as a list of
  `Event`s; `exit(-1)` and `return 0` are the `status` of a `Run`.
-/

namespace NonIid

/-! ## Data model -/

/-- Sample set `data_t`, with the fields that the driver reads or writes. `symbols` and
`bsymbols` are the buffers behind the two pointers; `len` and `blen` are stored separately,
as in the source, and say how much of each buffer an estimator looks at. -/
structure data_t where
  word_size : Int
  alph_size : Int
  symbols : List Nat
  bsymbols : List Nat
  len : Int
  blen : Int
deriving DecidableEq

/-- The estimator suite called by `estimate`, one field per external function, with the
argument order of the call sites. `SAalgs` writes its two results through the reference
parameters `tmp1` and `tmp2`: it receives their current values and returns the new ones. -/
structure Estimators where
  most_common : List Nat → Int → Int → Int → String → ℚ
  collision_test : List Nat → Int → Int → String → ℚ
  markov_test : List Nat → Int → Int → String → ℚ
  compression_test : List Nat → Int → Int → String → ℚ
  SAalgs : List Nat → Int → Int → ℚ → ℚ → Int → String → ℚ × ℚ
  multi_mcw_test : List Nat → Int → Int → Int → String → ℚ
  lag_test : List Nat → Int → Int → Int → String → ℚ
  multi_mmc_test : List Nat → Int → Int → Int → String → ℚ
  LZ78Y_test : List Nat → Int → Int → Int → String → ℚ

/-- Constants of the build that the driver uses: the macro `MIN_SIZE` of `shared/utils.h`
and `ULONG_MAX` of `limits.h`. -/
structure Limits where
  MIN_SIZE : Int
  ULONG_MAX : Nat

/-! ## `estimate` (lines 49-86) -/

/-- The algorithm of `std::min_element` followed by the dereference: the first smallest
element of the range, and no value for the empty range (dereferencing `end()`). -/
def min_element : List ℚ → Option ℚ
  | [] => none
  | x :: xs => some (xs.foldl (fun smallest y => if y < smallest then y else smallest) x)

/-- The vector `entropies` as it stands at line 85, after all `push_back`s. -/
def entropies (E : Estimators) (data : data_t) (verbose : Int) (useBinary : Bool) : List ℚ :=
  let symbols := if useBinary then data.bsymbols else data.symbols
  let len := if useBinary then data.blen else data.len
  let alpha_size : Int := if useBinary then 2 else data.alph_size
  let label := if useBinary then "Bitstring" else "Literal"
  let entropies : List ℚ := []
  let tmp1 : ℚ := 0
  let tmp2 : ℚ := 0
  let entropies := entropies ++ [E.most_common symbols len alpha_size verbose label]
  let entropies :=
    if alpha_size = 2 then
      entropies ++ [E.collision_test symbols len verbose label]
        ++ [E.markov_test symbols len verbose label]
        ++ [E.compression_test symbols len verbose label]
    else entropies
  let tmp := E.SAalgs symbols len alpha_size tmp1 tmp2 verbose label
  let entropies := entropies ++ [tmp.1]
  let entropies := entropies ++ [tmp.2]
  let entropies := entropies ++ [E.multi_mcw_test symbols len alpha_size verbose label]
  let entropies := entropies ++ [E.lag_test symbols len alpha_size verbose label]
  let entropies := entropies ++ [E.multi_mmc_test symbols len alpha_size verbose label]
  let entropies := entropies ++ [E.LZ78Y_test symbols len alpha_size verbose label]
  entropies

/-- The function `estimate`: the value at `std::min_element` of the collected estimates. -/
def estimate (E : Estimators) (data : data_t) (verbose : Int) (useBinary : Bool) : Option ℚ :=
  min_element (entropies E data verbose useBinary)

/-! ## `main` (lines 88-229) -/

/-- Observable steps of a run of `main`, in program order: one constructor per `printf`
of `main` (named after its text) and one per call whose effect matters to the
assessment. -/
inductive Event where
  /-- Line 149, "Incorrect usage." -/
  | incorrect_usage
  /-- Line 159, "Invalid bits per symbol." -/
  | invalid_bits
  /-- The text printed by `print_usage` (lines 19-45). -/
  | usage
  /-- Line 166, "Opening file: ..." -/
  | opening (file_path : String)
  /-- Line 168, the call of `read_file_subset` with the `word_size` held by `data`. -/
  | read_file_subset (file_path : String) (word_size : Int) (subsetIndex subsetSize : Nat)
  /-- Line 169, "Error reading file." -/
  | error_reading
  /-- Line 172, "Loaded ... samples of ... distinct ...-bit-wide symbols". -/
  | loaded (len : Int) (alph_size : Int) (word_size : Int)
  /-- Line 175, "Symbol alphabet consists of 1 symbol. No entropy awarded..." -/
  | no_entropy
  /-- Lines 176 and 227, the call of `free_data`. -/
  | free_data
  /-- Line 183, "Number of Binary Symbols: ..." -/
  | number_of_binary_symbols (blen : Int)
  /-- Line 184, "*** Warning: data contains less than ... samples ***" -/
  | warning_few_samples
  /-- Line 186, "Symbols have been translated." -/
  | symbols_translated
  /-- Lines 195 and 199, a call of `estimate` with its arguments (the call includes whatever
  the estimators print themselves). -/
  | estimate (data : data_t) (verbose : Int) (useBinary : Bool)
  /-- Line 203, the empty line. -/
  | newline
  /-- Line 205, "H_original: %f". -/
  | H_original (v : ℚ)
  /-- Line 207, "H_bitstring: %f". -/
  | H_bitstring (v : ℚ)
  /-- Line 208, "min(H_original, %d X H_bitstring): %f". -/
  | min_H_original_H_bitstring (word_size : Int) (v : ℚ)
  /-- Line 210, "h': %f". -/
  | h_prime (v : ℚ)
  /-- Line 216, "H_bitstring = %.17g". -/
  | H_bitstring_g (v : ℚ)
  /-- Line 221, "H_original: %.17g". -/
  | H_original_g (v : ℚ)
  /-- Line 224, "Assessed min entropy: %.17g". -/
  | assessed_min_entropy (v : ℚ)
deriving DecidableEq

/-- A finished run of `main`: what it did and the status it ended with (`-1` for
`exit(-1)`, `0` for `return 0`). -/
structure Run where
  trace : List Event
  status : Int
deriving DecidableEq

/-- The function `print_usage` (lines 18-47) called after the steps `trace`: prints the
usage text and ends the process with `exit(-1)`. -/
def print_usage (trace : List Event) : Run :=
  { trace := trace ++ [Event.usage], status := -1 }

/-- One option as `getopt` hands it to the loop of line 107. For `-l` the results of the
two `strtoull` calls are given: the two numbers, whether the first test of line 126
`(errno == EINVAL) || (nextOption == NULL) || (*nextOption != ',')` holds, and whether the
test `errno == EINVAL` of line 134 holds. `unknown` is any other return value of `getopt`. -/
inductive Opt where
  | i
  | c
  | a
  | t
  | v
  | l (first : Nat) (first_bad : Bool) (second : Nat) (second_bad : Bool)
  | unknown
deriving DecidableEq

/-- The variables of `main` that the option loop sets. -/
structure Flags where
  initial_entropy : Bool
  all_bits : Bool
  verbose : Int
  subsetIndex : Nat
  subsetSize : Nat
deriving DecidableEq

/-- Values of the flags before the option loop (lines 90, 97, 98, 104, 105). -/
def Flags.initial (L : Limits) : Flags :=
  { initial_entropy := true, all_bits := true, verbose := 0,
    subsetIndex := L.ULONG_MAX, subsetSize := 0 }

/-- The option loop, lines 107-142; `none` when `print_usage` is called. -/
def getopt_loop (L : Limits) : List Opt → Flags → Option Flags
  | [], f => some f
  | Opt.i :: rest, f => getopt_loop L rest { f with initial_entropy := true }
  | Opt.c :: rest, f => getopt_loop L rest { f with initial_entropy := false }
  | Opt.a :: rest, f => getopt_loop L rest { f with all_bits := true }
  | Opt.t :: rest, f => getopt_loop L rest { f with all_bits := false }
  | Opt.v :: rest, f => getopt_loop L rest { f with verbose := f.verbose + 1 }
  | Opt.l first first_bad second second_bad :: rest, f =>
    if first > L.ULONG_MAX ∨ first_bad = true then none
    else if second > L.ULONG_MAX ∨ second_bad = true then none
    else getopt_loop L rest { f with subsetIndex := first, subsetSize := second }
  | Opt.unknown :: _, _ => none

/-- A positional command-line word, with the `int` that `atoi` returns for it. -/
structure Arg where
  text : String
  atoi : Int
deriving DecidableEq

/-- Lines 144-164 on the words left after the options: the file name and the value of
`data.word_size`, or the steps taken before `print_usage`. The `int` of `atoi` is stored
in the `unsigned long long inint`, hence the reduction modulo `2^64`. -/
def parse_args (args : List Arg) : Except (List Event) (String × Int) :=
  match args with
  | [file] => Except.ok (file.text, 0)
  | [file, bits] =>
    let inint : Int := bits.atoi % 2 ^ 64
    if inint < 1 ∨ inint > 8 then Except.error [Event.invalid_bits]
    else Except.ok (file.text, inint)
  | _ => Except.error [Event.incorrect_usage]

/-- Lines 180-181, the optional truncation of the two lengths. -/
def truncate (L : Limits) (all_bits : Bool) (data : data_t) : data_t :=
  let data := if all_bits = false ∧ data.blen > L.MIN_SIZE then { data with blen := L.MIN_SIZE } else data
  let data := if all_bits = false ∧ data.len > L.MIN_SIZE then { data with len := L.MIN_SIZE } else data
  data

/-- Lines 183-187, the notes printed before the assessment. -/
def notes (L : Limits) (f : Flags) (data : data_t) : List Event :=
  (if f.verbose > 0 ∧ (data.alph_size > 2 ∨ f.initial_entropy = false)
    then [Event.number_of_binary_symbols data.blen] else [])
  ++ (if data.len < L.MIN_SIZE then [Event.warning_few_samples] else [])
  ++ (if f.verbose > 0 ∧ data.alph_size < 2 ^ data.word_size.toNat
    then [Event.symbols_translated] else [])

/-- Lines 189-200: the two channel bounds `(H_original, H_bitstring)` and the calls of
`estimate` made for them; no value when an `estimate` has none. -/
def channel_bounds (E : Estimators) (data : data_t) (initial_entropy : Bool) (verbose : Int) :
    Option (ℚ × ℚ × List Event) :=
  let H_original : ℚ := data.word_size
  let H_bitstring : ℚ := 1
  (if data.alph_size > 2 ∨ initial_entropy = false then
      (estimate E data verbose true).map
        (fun e => (min H_bitstring e, [Event.estimate data verbose true]))
    else some (H_bitstring, [])).bind fun b =>
  let H_bitstring := b.1
  (if initial_entropy = true then
      (estimate E data verbose false).map
        (fun e => (min H_original e, [Event.estimate data verbose false]))
    else some (H_original, [])).bind fun o =>
  let H_original := o.1
  some (H_original, H_bitstring, b.2 ++ o.2)

/-- Lines 202-225, the report of the bounds. -/
def report (data : data_t) (initial_entropy : Bool) (verbose : Int)
    (H_original H_bitstring : ℚ) : List Event :=
  if verbose ≤ 1 then
    [Event.newline] ++
    (if initial_entropy = true then
      [Event.H_original H_original] ++
      (if data.alph_size > 2 then
        [Event.H_bitstring H_bitstring,
         Event.min_H_original_H_bitstring data.word_size
           (min H_original (data.word_size * H_bitstring))]
      else [])
    else [Event.h_prime H_bitstring])
  else
    let h_assessed : ℚ := data.word_size
    let s1 : ℚ × List Event :=
      if data.alph_size > 2 ∨ initial_entropy = false then
        (min h_assessed (H_bitstring * data.word_size), [Event.H_bitstring_g H_bitstring])
      else (h_assessed, [])
    let h_assessed := s1.1
    let s2 : ℚ × List Event :=
      if initial_entropy = true then
        (min h_assessed H_original, [Event.H_original_g H_original])
      else (h_assessed, [])
    let h_assessed := s2.1
    s1.2 ++ s2.2 ++ [Event.assessed_min_entropy h_assessed]

/-- Lines 172-228: `main` from the point where `read_file_subset` has filled `data`. -/
def main_loaded (L : Limits) (E : Estimators) (f : Flags) (data : data_t) : Option Run :=
  let t0 : List Event :=
    if f.verbose > 0 then [Event.loaded data.len data.alph_size data.word_size] else []
  if data.alph_size ≤ 1 then
    some { trace := t0 ++ [Event.no_entropy, Event.free_data], status := -1 }
  else
    let data := truncate L f.all_bits data
    let t1 := notes L f data
    (channel_bounds E data f.initial_entropy f.verbose).map fun r =>
      { trace := t0 ++ t1 ++ r.2.2 ++ report data f.initial_entropy f.verbose r.1 r.2.1
          ++ [Event.free_data],
        status := 0 }

/-- The function `main` (lines 88-229) on the options and positional words of the command
line, with the loader `read_file_subset` as a function of the file name, the `word_size`
already in `data` and the requested subset (`none` when it returns false). The result has
no value only when a dereferenced `std::min_element` has none. -/
def main (L : Limits) (E : Estimators)
    (read_file_subset : String → Int → Nat → Nat → Option data_t)
    (opts : List Opt) (args : List Arg) : Option Run :=
  match getopt_loop L opts (Flags.initial L) with
  | none => some (print_usage [])
  | some f =>
    match parse_args args with
    | Except.error trace => some (print_usage trace)
    | Except.ok (file_path, word_size) =>
      let t0 : List Event :=
        (if f.verbose > 0 then [Event.opening file_path] else [])
        ++ [Event.read_file_subset file_path word_size f.subsetIndex f.subsetSize]
      match read_file_subset file_path word_size f.subsetIndex f.subsetSize with
      | none => some (print_usage (t0 ++ [Event.error_reading]))
      | some data =>
        (main_loaded L E f data).map fun r => { r with trace := t0 ++ r.trace }

/-- Whether a step prints the value of an entropy bound (lines 205-224). -/
def Event.is_bound : Event → Bool
  | Event.H_original _ => true
  | Event.H_bitstring _ => true
  | Event.min_H_original_H_bitstring _ _ => true
  | Event.h_prime _ => true
  | Event.H_bitstring_g _ => true
  | Event.H_original_g _ => true
  | Event.assessed_min_entropy _ => true
  | _ => false

/-- Whether a step is a call of `estimate`. -/
def Event.is_estimate : Event → Bool
  | Event.estimate _ _ _ => true
  | _ => false

/-! ## Sample values used to instantiate the general statements -/

/-- An estimator suite with a different constant for every estimator. -/
def sample_estimators : Estimators where
  most_common := fun _ _ _ _ _ => 3 / 4
  collision_test := fun _ _ _ _ => 1 / 4
  markov_test := fun _ _ _ _ => 1 / 2
  compression_test := fun _ _ _ _ => 1 / 3
  SAalgs := fun _ _ _ _ _ _ _ => (7 / 8, 5 / 8)
  multi_mcw_test := fun _ _ _ _ _ => 9 / 10
  lag_test := fun _ _ _ _ _ => 4 / 5
  multi_mmc_test := fun _ _ _ _ _ => 7 / 10
  LZ78Y_test := fun _ _ _ _ _ => 2 / 3

/-- The usual build: `MIN_SIZE` is one million and `unsigned long` has 64 bits. -/
def sample_limits : Limits := { MIN_SIZE := 1000000, ULONG_MAX := 2 ^ 64 - 1 }

/-- Four 2-bit symbols `0 1 2 3` with their bit expansion. -/
def sample_data : data_t :=
  { word_size := 2, alph_size := 4, symbols := [0, 1, 2, 3],
    bsymbols := [0, 0, 0, 1, 1, 0, 1, 1], len := 4, blen := 8 }

/-- Four 8-bit symbols over the two values `0x00` and `0xFF`, translated to `0` and `1` by
the loader, with the 32 bits of the raw bytes. -/
def sample_two_valued : data_t :=
  { word_size := 8, alph_size := 2, symbols := [0, 1, 1, 0],
    bsymbols := List.replicate 8 0 ++ List.replicate 16 1 ++ List.replicate 8 0,
    len := 4, blen := 32 }

/-- Two million bytes `0, 1, ..., 255, 0, 1, ...` with their sixteen million bits, most
significant bit first. -/
def sample_long : data_t :=
  { word_size := 8, alph_size := 256,
    symbols := (List.range 2000000).map (fun k => k % 256),
    bsymbols := (List.range 16000000).map (fun k => (k / 8 % 256) / 2 ^ (7 - k % 8) % 2),
    len := 2000000, blen := 16000000 }

/-- One million bytes `0x00` as the loader presents them: one distinct symbol. -/
def sample_constant : data_t :=
  { word_size := 8, alph_size := 1, symbols := List.replicate 1000000 0,
    bsymbols := List.replicate 8000000 0, len := 1000000, blen := 8000000 }

/-- A loader that finds the sample set `data` in every file. -/
def sample_loader (data : data_t) : String → Int → Nat → Nat → Option data_t :=
  fun _ _ _ _ => some data

/-- The flags after `-c -v -v`. -/
def sample_conditioned_flags : Flags :=
  { initial_entropy := false, all_bits := true, verbose := 2,
    subsetIndex := 2 ^ 64 - 1, subsetSize := 0 }

/-- The words `data.bin 8` after the options. -/
def sample_args : List Arg :=
  [{ text := "data.bin", atoi := 0 }, { text := "8", atoi := 8 }]

/-! ## Lemmas on `min_element` and `estimate` -/

theorem min_element_step (s y : ℚ) : (if y < s then y else s) = min s y := by
  rcases lt_or_le y s with h | h
  · rw [if_pos h, min_eq_right h.le]
  · rw [if_neg (not_lt.mpr h), min_eq_left h]

theorem min_element_cons (x : ℚ) (xs : List ℚ) :
    min_element (x :: xs) = some (xs.foldl min x) := by
  have h : (fun smallest y : ℚ => if y < smallest then y else smallest) = min := by
    funext s y
    exact min_element_step s y
  simp only [min_element, h]

/-! ## C1: `estimate` returns the minimum over the applicable estimators -/

/-- C1: for every estimator suite, sample set, verbosity and channel, `estimate` returns
the minimum of Most-Common-Value, the two tuple estimates and the four predictors, together
with Collision, Markov and Compression exactly when the channel alphabet size is 2 (always
on the bitstring channel, on the literal channel when `alph_size = 2`); on a literal
channel with `alph_size > 2` replacing Collision, Markov and Compression by any other
functions leaves the result unchanged. -/
theorem estimate_eq_min_of_applicable (E : Estimators) (data : data_t) (verbose : Int)
    (useBinary : Bool) :
    estimate E data verbose useBinary =
      some (
        let symbols := if useBinary then data.bsymbols else data.symbols
        let len := if useBinary then data.blen else data.len
        let alpha_size : Int := if useBinary then 2 else data.alph_size
        let label := if useBinary then "Bitstring" else "Literal"
        let tuple := E.SAalgs symbols len alpha_size 0 0 verbose label
        let common :=
          min (E.most_common symbols len alpha_size verbose label)
            (min tuple.1 (min tuple.2
              (min (E.multi_mcw_test symbols len alpha_size verbose label)
                (min (E.lag_test symbols len alpha_size verbose label)
                  (min (E.multi_mmc_test symbols len alpha_size verbose label)
                    (E.LZ78Y_test symbols len alpha_size verbose label))))))
        if alpha_size = 2 then
          min common
            (min (E.collision_test symbols len verbose label)
              (min (E.markov_test symbols len verbose label)
                (E.compression_test symbols len verbose label)))
        else common)
    ∧ (∀ collision markov compression : List Nat → Int → Int → String → ℚ,
        2 < data.alph_size →
        estimate { E with collision_test := collision, markov_test := markov,
                          compression_test := compression } data verbose false
          = estimate E data verbose false) := by
  constructor
  · by_cases h : (if useBinary then (2 : Int) else data.alph_size) = 2
    · simp only [estimate, entropies, h, if_true, List.nil_append, List.cons_append,
        min_element_cons, List.foldl_cons, List.foldl_nil, Option.some.injEq]
      ac_rfl
    · simp only [estimate, entropies, h, if_false, List.nil_append, List.cons_append,
        min_element_cons, List.foldl_cons, List.foldl_nil, Option.some.injEq]
      ac_rfl
  · intro c m k h
    have h2 : ¬ data.alph_size = 2 := by omega
    simp [estimate, entropies, h2]

/-- C1 at the sample values: on the literal channel of a four-symbol alphabet, Collision,
Markov and Compression may be replaced without changing the result. -/
theorem estimate_eq_min_of_applicable_witness :
    (2 : Int) < sample_data.alph_size ∧
    estimate { sample_estimators with collision_test := fun _ _ _ _ => 0,
                                      markov_test := fun _ _ _ _ => 0,
                                      compression_test := fun _ _ _ _ => 0 } sample_data 0 false
      = estimate sample_estimators sample_data 0 false :=
  ⟨by decide,
   (estimate_eq_min_of_applicable sample_estimators sample_data 0 false).2
     (fun _ _ _ _ => 0) (fun _ _ _ _ => 0) (fun _ _ _ _ => 0) (by decide)⟩

/-! ## Lemmas on the parts of `main` -/

theorem entropies_eq_cons (E : Estimators) (data : data_t) (verbose : Int) (useBinary : Bool) :
    ∃ x xs, entropies E data verbose useBinary = x :: xs := by
  by_cases h : (if useBinary then (2 : Int) else data.alph_size) = 2
  · exact ⟨_, _, by simp only [entropies, h, if_true, List.nil_append, List.cons_append]; rfl⟩
  · exact ⟨_, _, by simp only [entropies, h, if_false, List.nil_append, List.cons_append]; rfl⟩

theorem estimate_eq_some (E : Estimators) (data : data_t) (verbose : Int) (useBinary : Bool) :
    ∃ e, estimate E data verbose useBinary = some e := by
  obtain ⟨x, xs, h⟩ := entropies_eq_cons E data verbose useBinary
  exact ⟨_, by rw [estimate, h, min_element_cons]⟩

theorem channel_bounds_eq (E : Estimators) (data : data_t) (initial_entropy : Bool)
    (verbose : Int) (e_lit e_bit : ℚ)
    (hl : estimate E data verbose false = some e_lit)
    (hb : estimate E data verbose true = some e_bit) :
    channel_bounds E data initial_entropy verbose =
      some (if initial_entropy = true then min (data.word_size : ℚ) e_lit else data.word_size,
            if data.alph_size > 2 ∨ initial_entropy = false then min 1 e_bit else 1,
            (if data.alph_size > 2 ∨ initial_entropy = false
              then [Event.estimate data verbose true] else [])
            ++ (if initial_entropy = true then [Event.estimate data verbose false] else [])) := by
  unfold channel_bounds
  rw [hl, hb]
  cases initial_entropy <;> by_cases h1 : 2 < data.alph_size <;> simp [h1]

theorem truncate_eq (L : Limits) (all_bits : Bool) (data : data_t) :
    truncate L all_bits data =
      { data with
        blen := if all_bits = false ∧ data.blen > L.MIN_SIZE then L.MIN_SIZE else data.blen,
        len := if all_bits = false ∧ data.len > L.MIN_SIZE then L.MIN_SIZE else data.len } := by
  simp only [truncate]
  split_ifs <;> rfl

theorem truncate_alph_size (L : Limits) (all_bits : Bool) (data : data_t) :
    (truncate L all_bits data).alph_size = data.alph_size := by
  rw [truncate_eq]

theorem truncate_word_size (L : Limits) (all_bits : Bool) (data : data_t) :
    (truncate L all_bits data).word_size = data.word_size := by
  rw [truncate_eq]

theorem main_loaded_eq (L : Limits) (E : Estimators) (f : Flags) (data : data_t)
    (e_lit e_bit : ℚ) (ha : 2 ≤ data.alph_size)
    (hl : estimate E (truncate L f.all_bits data) f.verbose false = some e_lit)
    (hb : estimate E (truncate L f.all_bits data) f.verbose true = some e_bit) :
    main_loaded L E f data =
      some
        { trace :=
            (if f.verbose > 0 then [Event.loaded data.len data.alph_size data.word_size] else [])
            ++ notes L f (truncate L f.all_bits data)
            ++ ((if data.alph_size > 2 ∨ f.initial_entropy = false
                  then [Event.estimate (truncate L f.all_bits data) f.verbose true] else [])
                ++ (if f.initial_entropy = true
                  then [Event.estimate (truncate L f.all_bits data) f.verbose false] else []))
            ++ report (truncate L f.all_bits data) f.initial_entropy f.verbose
                (if f.initial_entropy = true then min (data.word_size : ℚ) e_lit
                  else data.word_size)
                (if data.alph_size > 2 ∨ f.initial_entropy = false then min 1 e_bit else 1)
            ++ [Event.free_data],
          status := 0 } := by
  have h1 : ¬ data.alph_size ≤ 1 := by omega
  unfold main_loaded
  simp only [h1, if_false]
  rw [channel_bounds_eq E _ f.initial_entropy f.verbose e_lit e_bit hl hb]
  simp only [truncate_alph_size, truncate_word_size, Option.map_some']

theorem min_cap_assoc (w x e : ℚ) : min (min w x) (min w e) = min (min w e) x := by
  rcases le_total w x with h1 | h1 <;> rcases le_total w e with h2 | h2 <;>
    rcases le_total x e with h3 | h3 <;> simp [h1, h2, h3, min_eq_left, min_eq_right]
  all_goals linarith

theorem main_loaded_degenerate (L : Limits) (E : Estimators) (f : Flags) (data : data_t)
    (h : data.alph_size ≤ 1) :
    main_loaded L E f data =
      some
        { trace :=
            (if f.verbose > 0 then [Event.loaded data.len data.alph_size data.word_size] else [])
            ++ [Event.no_entropy, Event.free_data],
          status := -1 } := by
  simp only [main_loaded, h, if_true]

theorem main_loaded_eq_some (L : Limits) (E : Estimators) (f : Flags) (data : data_t) :
    ∃ run, main_loaded L E f data = some run := by
  by_cases h : data.alph_size ≤ 1
  · exact ⟨_, main_loaded_degenerate L E f data h⟩
  · obtain ⟨e_lit, hl⟩ := estimate_eq_some E (truncate L f.all_bits data) f.verbose false
    obtain ⟨e_bit, hb⟩ := estimate_eq_some E (truncate L f.all_bits data) f.verbose true
    exact ⟨_, main_loaded_eq L E f data e_lit e_bit (by omega) hl hb⟩

theorem main_eq_of_loaded (L : Limits) (E : Estimators)
    (read_file_subset : String → Int → Nat → Nat → Option data_t)
    (opts : List Opt) (args : List Arg) (f : Flags) (file_path : String) (word_size : Int)
    (data : data_t)
    (hopts : getopt_loop L opts (Flags.initial L) = some f)
    (hargs : parse_args args = Except.ok (file_path, word_size))
    (hread : read_file_subset file_path word_size f.subsetIndex f.subsetSize = some data) :
    main L E read_file_subset opts args =
      (main_loaded L E f data).map fun r =>
        { r with
          trace :=
            ((if f.verbose > 0 then [Event.opening file_path] else [])
              ++ [Event.read_file_subset file_path word_size f.subsetIndex f.subsetSize])
            ++ r.trace } := by
  simp only [main, hopts, hargs, hread]

theorem not_bound_of_mem_notes (L : Limits) (f : Flags) (data : data_t) :
    ∀ e ∈ notes L f data,
      e.is_bound = false ∧ e.is_estimate = false ∧ e ≠ Event.no_entropy := by
  unfold notes
  split_ifs <;> simp [Event.is_bound, Event.is_estimate]

theorem not_estimate_of_mem_report (data : data_t) (initial_entropy : Bool) (verbose : Int)
    (H_o H_b : ℚ) :
    ∀ e ∈ report data initial_entropy verbose H_o H_b,
      e.is_estimate = false ∧ e ≠ Event.no_entropy := by
  unfold report
  split_ifs <;> simp [Event.is_estimate]

theorem main_eq_of_args (L : Limits) (E : Estimators)
    (read_file_subset : String → Int → Nat → Nat → Option data_t)
    (opts : List Opt) (args : List Arg) (f : Flags) (file_path : String) (word_size : Int)
    (hopts : getopt_loop L opts (Flags.initial L) = some f)
    (hargs : parse_args args = Except.ok (file_path, word_size)) :
    ∃ rest status,
      main L E read_file_subset opts args =
        some
          { trace :=
              (if f.verbose > 0 then [Event.opening file_path] else [])
              ++ [Event.read_file_subset file_path word_size f.subsetIndex f.subsetSize]
              ++ rest,
            status := status } := by
  cases hread : read_file_subset file_path word_size f.subsetIndex f.subsetSize with
  | none =>
    refine ⟨[Event.error_reading, Event.usage], -1, ?_⟩
    simp only [main, hopts, hargs, hread, print_usage, List.append_assoc, List.singleton_append,
      List.cons_append, List.nil_append]
  | some data =>
    obtain ⟨run, hrun⟩ := main_loaded_eq_some L E f data
    refine ⟨run.trace, run.status, ?_⟩
    rw [main_eq_of_loaded L E read_file_subset opts args f file_path word_size data hopts
      hargs hread, hrun]
    rfl

theorem main_eq_of_rejected (L : Limits) (E : Estimators)
    (read_file_subset : String → Int → Nat → Nat → Option data_t)
    (opts : List Opt) (args : List Arg) (f : Flags) (trace : List Event)
    (hopts : getopt_loop L opts (Flags.initial L) = some f)
    (hargs : parse_args args = Except.error trace) :
    main L E read_file_subset opts args = some { trace := trace ++ [Event.usage], status := -1 } := by
  simp only [main, hopts, hargs, print_usage]

theorem report_initial_eq (data : data_t) (verbose : Int) (e_lit e_bit : ℚ) :
    report data true verbose (min (data.word_size : ℚ) e_lit)
        (if data.alph_size > 2 then min 1 e_bit else 1) =
      (if verbose ≤ 1 then
        if data.alph_size > 2 then
          [Event.newline, Event.H_original (min (data.word_size : ℚ) e_lit),
           Event.H_bitstring (min 1 e_bit),
           Event.min_H_original_H_bitstring data.word_size
             (min (min (data.word_size : ℚ) e_lit) (data.word_size * min 1 e_bit))]
        else
          [Event.newline,
           Event.H_original (min (min (data.word_size : ℚ) e_lit) (data.word_size * 1))]
      else
        (if data.alph_size > 2 then [Event.H_bitstring_g (min 1 e_bit)] else [])
        ++ [Event.H_original_g (min (data.word_size : ℚ) e_lit),
            Event.assessed_min_entropy
              (min (min (data.word_size : ℚ) e_lit)
                (data.word_size * (if data.alph_size > 2 then min 1 e_bit else 1)))]) := by
  unfold report
  simp only [if_true, Bool.true_eq_false, or_false]
  have hcap : min (data.word_size : ℚ) (min (data.word_size : ℚ) e_lit)
      = min (data.word_size : ℚ) e_lit := by
    rw [← min_assoc, min_self]
  by_cases hv : verbose ≤ 1
  · by_cases h2 : data.alph_size > 2
    · simp [hv, h2]
    · simp [hv, h2]
  · by_cases h2 : data.alph_size > 2
    · simp only [hv, h2, if_true, if_false, List.singleton_append, List.cons_append,
        List.nil_append, mul_comm (min (1 : ℚ) e_bit) (data.word_size : ℚ), min_cap_assoc]
    · simp [hv, h2, hcap]

/-! ## C10: the minimum in `estimate` is over ten or seven estimates -/

/-- C10: for every sample set and both channels, the vector of collected estimates has
exactly 10 entries when the channel alphabet size is 2 and exactly 7 otherwise; it is never
empty, so the dereferenced `std::min_element` of `estimate` always has a value. -/
theorem entropies_length_ten_or_seven (E : Estimators) (data : data_t) (verbose : Int)
    (useBinary : Bool) :
    (entropies E data verbose useBinary).length =
        (if (if useBinary then (2 : Int) else data.alph_size) = 2 then 10 else 7)
    ∧ entropies E data verbose useBinary ≠ []
    ∧ (estimate E data verbose useBinary).isSome = true := by
  refine ⟨?_, ?_, ?_⟩
  · by_cases h : (if useBinary then (2 : Int) else data.alph_size) = 2
    · simp only [entropies, h, if_true, List.nil_append, List.cons_append, List.length_cons,
        List.length_nil]
    · simp only [entropies, h, if_false, List.nil_append, List.cons_append, List.length_cons,
        List.length_nil]
  · obtain ⟨x, xs, h⟩ := entropies_eq_cons E data verbose useBinary
    rw [h]
    exact List.cons_ne_nil x xs
  · obtain ⟨e, h⟩ := estimate_eq_some E data verbose useBinary
    rw [h]
    rfl

/-! ## C9: each channel bound is the channel estimate capped at the channel maximum -/

/-- C9: both channel estimates exist, and lines 189-200 yield `H_original = min(word_size,
estimate(literal))` when the literal channel is assessed (`word_size` otherwise) and
`H_bitstring = min(1, estimate(bitstring))` when the bitstring channel is assessed (`1`
otherwise). So `H_original ≤ word_size` and `H_bitstring ≤ 1` always, and an assessed bound
is the estimate itself whenever the estimate does not exceed the maximum (zero and the
maximum included), and the maximum otherwise. -/
theorem channel_bounds_capped (E : Estimators) (data : data_t) (initial_entropy : Bool)
    (verbose : Int) :
    ∃ e_lit e_bit H_o H_b calls,
      estimate E data verbose false = some e_lit
      ∧ estimate E data verbose true = some e_bit
      ∧ channel_bounds E data initial_entropy verbose = some (H_o, H_b, calls)
      ∧ H_o = (if initial_entropy = true then min (data.word_size : ℚ) e_lit
                else data.word_size)
      ∧ H_b = (if data.alph_size > 2 ∨ initial_entropy = false then min 1 e_bit else 1)
      ∧ H_o ≤ data.word_size
      ∧ H_b ≤ 1
      ∧ H_o = (if initial_entropy = true ∧ e_lit ≤ data.word_size then e_lit
                else data.word_size)
      ∧ H_b = (if (data.alph_size > 2 ∨ initial_entropy = false) ∧ e_bit ≤ 1 then e_bit
                else 1) := by
  obtain ⟨e_lit, hl⟩ := estimate_eq_some E data verbose false
  obtain ⟨e_bit, hb⟩ := estimate_eq_some E data verbose true
  refine ⟨e_lit, e_bit, _, _, _, hl, hb, channel_bounds_eq E data initial_entropy verbose
    e_lit e_bit hl hb, rfl, rfl, ?_, ?_, ?_, ?_⟩
  · split_ifs
    · exact min_le_left _ _
    · exact le_refl _
  · split_ifs
    · exact min_le_left _ _
    · exact le_refl _
  · by_cases h1 : initial_entropy = true
    · by_cases h2 : e_lit ≤ (data.word_size : ℚ)
      · simp [h1, h2]
      · simp [h1, h2, le_of_not_le h2]
    · simp [h1]
  · by_cases h1 : data.alph_size > 2 ∨ initial_entropy = false
    · by_cases h2 : e_bit ≤ 1
      · simp [h1, h2]
      · simp [h1, h2, le_of_not_le h2]
    · simp [h1]

/-! ## C2: the initial-entropy result is `min(H_original, word_size * H_bitstring)` -/

/-- C2: in initial-entropy mode, for every sample set with `alph_size ≥ 2`, every word
size and every verbosity, with `H_original = min(word_size, estimate(literal))` and
`H_bitstring = min(1, estimate(bitstring))` (left at `1` when `alph_size = 2`), the run ends
with status 0 and its report carries `min(H_original, word_size * H_bitstring)`: at
verbosity at most 1 as the combined value of line 208, or as `H_original` alone when
`alph_size = 2`; at verbosity 2 and more as the assessed min entropy of line 224. -/
theorem initial_entropy_bound_eq_min (L : Limits) (E : Estimators) (f : Flags) (data : data_t)
    (hi : f.initial_entropy = true) (ha : 2 ≤ data.alph_size) :
    ∃ e_lit e_bit H_o H_b calls,
      estimate E (truncate L f.all_bits data) f.verbose false = some e_lit
      ∧ estimate E (truncate L f.all_bits data) f.verbose true = some e_bit
      ∧ channel_bounds E (truncate L f.all_bits data) true f.verbose = some (H_o, H_b, calls)
      ∧ H_o = min (data.word_size : ℚ) e_lit
      ∧ H_b = (if data.alph_size > 2 then min 1 e_bit else 1)
      ∧ report (truncate L f.all_bits data) true f.verbose H_o H_b =
          (if f.verbose ≤ 1 then
            if data.alph_size > 2 then
              [Event.newline, Event.H_original H_o, Event.H_bitstring H_b,
               Event.min_H_original_H_bitstring data.word_size
                 (min H_o (data.word_size * H_b))]
            else [Event.newline, Event.H_original (min H_o (data.word_size * H_b))]
          else
            (if data.alph_size > 2 then [Event.H_bitstring_g H_b] else [])
            ++ [Event.H_original_g H_o,
                Event.assessed_min_entropy (min H_o (data.word_size * H_b))])
      ∧ main_loaded L E f data =
          some
            { trace :=
                (if f.verbose > 0
                  then [Event.loaded data.len data.alph_size data.word_size] else [])
                ++ notes L f (truncate L f.all_bits data)
                ++ calls
                ++ report (truncate L f.all_bits data) true f.verbose H_o H_b
                ++ [Event.free_data],
              status := 0 } := by
  obtain ⟨e_lit, hl⟩ := estimate_eq_some E (truncate L f.all_bits data) f.verbose false
  obtain ⟨e_bit, hb⟩ := estimate_eq_some E (truncate L f.all_bits data) f.verbose true
  have hc := channel_bounds_eq E (truncate L f.all_bits data) true f.verbose e_lit e_bit hl hb
  have hm := main_loaded_eq L E f data e_lit e_bit ha hl hb
  simp only [truncate_alph_size, truncate_word_size, hi, if_true, Bool.true_eq_false,
    or_false] at hc hm
  refine ⟨e_lit, e_bit, _, _, _, hl, hb, hc, rfl, rfl, ?_, hm⟩
  have hr := report_initial_eq (truncate L f.all_bits data) f.verbose e_lit e_bit
  simp only [truncate_alph_size, truncate_word_size] at hr
  rw [hr]
  by_cases hv : f.verbose ≤ 1 <;> by_cases h2 : data.alph_size > 2 <;> simp [hv, h2]

/-- C2 at the sample values: a four-symbol sample set in initial-entropy mode. -/
theorem initial_entropy_bound_eq_min_witness :
    (Flags.initial sample_limits).initial_entropy = true ∧ (2 : Int) ≤ sample_data.alph_size ∧
    ∃ e_lit e_bit H_o H_b calls,
      estimate sample_estimators
          (truncate sample_limits (Flags.initial sample_limits).all_bits sample_data)
          (Flags.initial sample_limits).verbose false = some e_lit
      ∧ estimate sample_estimators
          (truncate sample_limits (Flags.initial sample_limits).all_bits sample_data)
          (Flags.initial sample_limits).verbose true = some e_bit
      ∧ channel_bounds sample_estimators
          (truncate sample_limits (Flags.initial sample_limits).all_bits sample_data) true
          (Flags.initial sample_limits).verbose = some (H_o, H_b, calls)
      ∧ H_o = min (sample_data.word_size : ℚ) e_lit
      ∧ H_b = (if sample_data.alph_size > 2 then min 1 e_bit else 1)
      ∧ report (truncate sample_limits (Flags.initial sample_limits).all_bits sample_data)
          true (Flags.initial sample_limits).verbose H_o H_b =
          (if (Flags.initial sample_limits).verbose ≤ 1 then
            if sample_data.alph_size > 2 then
              [Event.newline, Event.H_original H_o, Event.H_bitstring H_b,
               Event.min_H_original_H_bitstring sample_data.word_size
                 (min H_o (sample_data.word_size * H_b))]
            else [Event.newline, Event.H_original (min H_o (sample_data.word_size * H_b))]
          else
            (if sample_data.alph_size > 2 then [Event.H_bitstring_g H_b] else [])
            ++ [Event.H_original_g H_o,
                Event.assessed_min_entropy (min H_o (sample_data.word_size * H_b))])
      ∧ main_loaded sample_limits sample_estimators (Flags.initial sample_limits) sample_data =
          some
            { trace :=
                (if (Flags.initial sample_limits).verbose > 0
                  then [Event.loaded sample_data.len sample_data.alph_size
                          sample_data.word_size] else [])
                ++ notes sample_limits (Flags.initial sample_limits)
                    (truncate sample_limits (Flags.initial sample_limits).all_bits sample_data)
                ++ calls
                ++ report
                    (truncate sample_limits (Flags.initial sample_limits).all_bits sample_data)
                    true (Flags.initial sample_limits).verbose H_o H_b
                ++ [Event.free_data],
              status := 0 } :=
  ⟨rfl, by decide,
   initial_entropy_bound_eq_min sample_limits sample_estimators (Flags.initial sample_limits)
     sample_data rfl (by decide)⟩

/-! ## C3: the conditioned mode -/

/-- C3 fails as stated: in conditioned mode at verbosity 2, with `word_size = 2` and a
bitstring bound `H_bitstring = 1/4`, the value printed as "Assessed min entropy" is
`min(2, 1/4 * 2) = 1/2`, not `H_bitstring`. -/
theorem conditioned_assessed_counterexample :
    sample_conditioned_flags.initial_entropy = false
    ∧ (2 : Int) ≤ sample_data.alph_size
    ∧ channel_bounds sample_estimators sample_data false 2
        = some (2, 1 / 4, [Event.estimate sample_data 2 true])
    ∧ main_loaded sample_limits sample_estimators sample_conditioned_flags sample_data
        = some
            { trace :=
                [Event.loaded 4 4 2, Event.number_of_binary_symbols 8,
                 Event.warning_few_samples, Event.estimate sample_data 2 true,
                 Event.H_bitstring_g (1 / 4), Event.assessed_min_entropy (1 / 2),
                 Event.free_data],
              status := 0 }
    ∧ (1 / 2 : ℚ) ≠ 1 / 4 := by
  have hb : estimate sample_estimators sample_data 2 true = some (1 / 4) := by
    simp [estimate, entropies, min_element, sample_estimators]
    norm_num
  have hl : estimate sample_estimators sample_data 2 false = some (5 / 8) := by
    simp [estimate, entropies, min_element, sample_estimators, sample_data]
    norm_num
  have ht : truncate sample_limits sample_conditioned_flags.all_bits sample_data = sample_data := by
    rfl
  refine ⟨rfl, by decide, ?_, ?_, by norm_num⟩
  · rw [channel_bounds_eq _ _ _ _ _ _ hl hb]
    simp [sample_data]
    norm_num
  · rw [main_loaded_eq _ _ _ _ (5 / 8) (1 / 4) (by decide) (by rw [ht]; exact hl)
      (by rw [ht]; exact hb), ht]
    simp [sample_conditioned_flags, sample_data, sample_limits, notes, report]
    norm_num

/-- C3, amended: in conditioned mode, for every sample set with `alph_size ≥ 2`, only the
bitstring channel is estimated and `H_bitstring = min(1, estimate(bitstring))`; the report
does not depend on `H_original`. At verbosity at most 1 the value printed as h' is
`H_bitstring` alone. At verbosity 2 and more `H_bitstring` is printed unscaled and the
value printed as "Assessed min entropy" is `min(word_size, H_bitstring * word_size)`. -/
theorem conditioned_report (L : Limits) (E : Estimators) (f : Flags) (data : data_t)
    (hc : f.initial_entropy = false) (ha : 2 ≤ data.alph_size) :
    ∃ e_bit H_o H_b,
      estimate E (truncate L f.all_bits data) f.verbose true = some e_bit
      ∧ channel_bounds E (truncate L f.all_bits data) false f.verbose
          = some (H_o, H_b, [Event.estimate (truncate L f.all_bits data) f.verbose true])
      ∧ H_b = min 1 e_bit
      ∧ (∀ H_any : ℚ,
          report (truncate L f.all_bits data) false f.verbose H_any H_b =
            (if f.verbose ≤ 1 then [Event.newline, Event.h_prime H_b]
              else [Event.H_bitstring_g H_b,
                    Event.assessed_min_entropy
                      (min (data.word_size : ℚ) (H_b * data.word_size))]))
      ∧ main_loaded L E f data =
          some
            { trace :=
                (if f.verbose > 0
                  then [Event.loaded data.len data.alph_size data.word_size] else [])
                ++ notes L f (truncate L f.all_bits data)
                ++ [Event.estimate (truncate L f.all_bits data) f.verbose true]
                ++ report (truncate L f.all_bits data) false f.verbose H_o H_b
                ++ [Event.free_data],
              status := 0 } := by
  obtain ⟨e_lit, hl⟩ := estimate_eq_some E (truncate L f.all_bits data) f.verbose false
  obtain ⟨e_bit, hb⟩ := estimate_eq_some E (truncate L f.all_bits data) f.verbose true
  have hcb := channel_bounds_eq E (truncate L f.all_bits data) false f.verbose e_lit e_bit hl hb
  have hm := main_loaded_eq L E f data e_lit e_bit ha hl hb
  simp only [truncate_alph_size, truncate_word_size, hc, if_true, if_false, or_true,
    Bool.false_eq_true, List.append_nil] at hcb hm
  refine ⟨e_bit, _, _, hb, hcb, rfl, ?_, hm⟩
  intro H_any
  unfold report
  by_cases hv : f.verbose ≤ 1
  · simp [hv]
  · simp [hv, truncate_word_size]

/-- C3, amended, at the sample values: conditioned mode on the four-symbol sample set. -/
theorem conditioned_report_witness :
    sample_conditioned_flags.initial_entropy = false ∧ (2 : Int) ≤ sample_data.alph_size ∧
    ∃ e_bit H_o H_b,
      estimate sample_estimators
          (truncate sample_limits sample_conditioned_flags.all_bits sample_data)
          sample_conditioned_flags.verbose true = some e_bit
      ∧ channel_bounds sample_estimators
          (truncate sample_limits sample_conditioned_flags.all_bits sample_data) false
          sample_conditioned_flags.verbose
          = some (H_o, H_b,
              [Event.estimate
                (truncate sample_limits sample_conditioned_flags.all_bits sample_data)
                sample_conditioned_flags.verbose true])
      ∧ H_b = min 1 e_bit
      ∧ (∀ H_any : ℚ,
          report (truncate sample_limits sample_conditioned_flags.all_bits sample_data) false
              sample_conditioned_flags.verbose H_any H_b =
            (if sample_conditioned_flags.verbose ≤ 1 then [Event.newline, Event.h_prime H_b]
              else [Event.H_bitstring_g H_b,
                    Event.assessed_min_entropy
                      (min (sample_data.word_size : ℚ) (H_b * sample_data.word_size))]))
      ∧ main_loaded sample_limits sample_estimators sample_conditioned_flags sample_data =
          some
            { trace :=
                (if sample_conditioned_flags.verbose > 0
                  then [Event.loaded sample_data.len sample_data.alph_size
                          sample_data.word_size] else [])
                ++ notes sample_limits sample_conditioned_flags
                    (truncate sample_limits sample_conditioned_flags.all_bits sample_data)
                ++ [Event.estimate
                      (truncate sample_limits sample_conditioned_flags.all_bits sample_data)
                      sample_conditioned_flags.verbose true]
                ++ report
                    (truncate sample_limits sample_conditioned_flags.all_bits sample_data)
                    false sample_conditioned_flags.verbose H_o H_b
                ++ [Event.free_data],
              status := 0 } :=
  ⟨rfl, by decide,
   conditioned_report sample_limits sample_estimators sample_conditioned_flags sample_data
     rfl (by decide)⟩

/-! ## C8: validation of the `bits_per_symbol` argument -/

/-- C8: for every `int` value `v` that `atoi` returns for the `bits_per_symbol` word, a `v`
between 1 and 8 is accepted: `data.word_size = v` and `read_file_subset` is the next call,
made with that word size. Every other `v` (zero, negative, above 8) is rejected: the run
is "Invalid bits per symbol." followed by the usage text and `exit(-1)`, without a call of
`read_file_subset`. Without the word, `read_file_subset` is called with `word_size = 0`. -/
theorem bits_per_symbol_accepted_iff (L : Limits) (E : Estimators)
    (read_file_subset : String → Int → Nat → Nat → Option data_t)
    (opts : List Opt) (f : Flags) (file bits : Arg)
    (hopts : getopt_loop L opts (Flags.initial L) = some f)
    (hint : -2 ^ 31 ≤ bits.atoi ∧ bits.atoi < 2 ^ 31) :
    (1 ≤ bits.atoi ∧ bits.atoi ≤ 8 →
      parse_args [file, bits] = Except.ok (file.text, bits.atoi)
      ∧ ∃ rest status,
          main L E read_file_subset opts [file, bits] =
            some
              { trace :=
                  (if f.verbose > 0 then [Event.opening file.text] else [])
                  ++ [Event.read_file_subset file.text bits.atoi f.subsetIndex f.subsetSize]
                  ++ rest,
                status := status })
    ∧ (¬ (1 ≤ bits.atoi ∧ bits.atoi ≤ 8) →
      parse_args [file, bits] = Except.error [Event.invalid_bits]
      ∧ main L E read_file_subset opts [file, bits] =
          some { trace := [Event.invalid_bits, Event.usage], status := -1 })
    ∧ (parse_args [file] = Except.ok (file.text, 0)
      ∧ ∃ rest status,
          main L E read_file_subset opts [file] =
            some
              { trace :=
                  (if f.verbose > 0 then [Event.opening file.text] else [])
                  ++ [Event.read_file_subset file.text 0 f.subsetIndex f.subsetSize]
                  ++ rest,
                status := status }) := by
  obtain ⟨hlo, hhi⟩ := hint
  refine ⟨?_, ?_, ?_⟩
  · rintro ⟨h1, h8⟩
    have hmod : bits.atoi % 2 ^ 64 = bits.atoi := Int.emod_eq_of_lt (by omega) (by omega)
    have hp : parse_args [file, bits] = Except.ok (file.text, bits.atoi) := by
      have hn : ¬ (bits.atoi < 1 ∨ bits.atoi > 8) := by omega
      simp only [parse_args, hmod, hn, if_false]
    exact ⟨hp, main_eq_of_args L E read_file_subset opts _ f _ _ hopts hp⟩
  · intro hn
    have hb : bits.atoi % 2 ^ 64 < 1 ∨ bits.atoi % 2 ^ 64 > 8 := by omega
    have hp : parse_args [file, bits] = Except.error [Event.invalid_bits] := by
      simp only [parse_args, hb, if_true]
    exact ⟨hp, main_eq_of_rejected L E read_file_subset opts _ f _ hopts hp⟩
  · exact ⟨rfl, main_eq_of_args L E read_file_subset opts _ f _ _ hopts rfl⟩

/-- C8 at the sample values: the word `8` is accepted and the word `-1` is rejected. -/
theorem bits_per_symbol_accepted_iff_witness :
    (getopt_loop sample_limits [] (Flags.initial sample_limits)
        = some (Flags.initial sample_limits)
      ∧ ((-2 ^ 31 : Int) ≤ 8 ∧ (8 : Int) < 2 ^ 31) ∧ ((1 : Int) ≤ 8 ∧ (8 : Int) ≤ 8)
      ∧ parse_args [{ text := "data.bin", atoi := 0 }, { text := "8", atoi := 8 }]
          = Except.ok ("data.bin", 8))
    ∧ (((-2 ^ 31 : Int) ≤ -1 ∧ (-1 : Int) < 2 ^ 31) ∧ ¬ ((1 : Int) ≤ -1 ∧ (-1 : Int) ≤ 8)
      ∧ main sample_limits sample_estimators (sample_loader sample_data) []
          [{ text := "data.bin", atoi := 0 }, { text := "-1", atoi := -1 }]
          = some { trace := [Event.invalid_bits, Event.usage], status := -1 }) :=
  ⟨⟨rfl, by decide, by decide,
    ((bits_per_symbol_accepted_iff sample_limits sample_estimators (sample_loader sample_data)
      [] (Flags.initial sample_limits) { text := "data.bin", atoi := 0 }
      { text := "8", atoi := 8 } rfl (by decide)).1 (by decide)).1⟩,
   ⟨by decide, by decide,
    ((bits_per_symbol_accepted_iff sample_limits sample_estimators (sample_loader sample_data)
      [] (Flags.initial sample_limits) { text := "data.bin", atoi := 0 }
      { text := "-1", atoi := -1 } rfl (by decide)).2.1 (by decide)).2⟩⟩

/-! ## C4: an alphabet of at most one symbol ends the run before any estimator -/

/-- C4: for every sample set that `read_file_subset` delivers with `alph_size ≤ 1`, in
either mode and at any verbosity, `main` prints the "No entropy awarded" line, frees the
data and ends with `exit(-1)`: no step of the run is a call of `estimate` and none prints a
bound. For `alph_size ≥ 2` the run does not print that line and ends with status 0. -/
theorem degenerate_alphabet_short_circuits (L : Limits) (E : Estimators)
    (read_file_subset : String → Int → Nat → Nat → Option data_t)
    (opts : List Opt) (args : List Arg) (f : Flags) (file_path : String) (word_size : Int)
    (data : data_t)
    (hopts : getopt_loop L opts (Flags.initial L) = some f)
    (hargs : parse_args args = Except.ok (file_path, word_size))
    (hread : read_file_subset file_path word_size f.subsetIndex f.subsetSize = some data) :
    (data.alph_size ≤ 1 →
      ∃ run, main L E read_file_subset opts args = some run
        ∧ run.trace =
            (if f.verbose > 0 then [Event.opening file_path] else [])
            ++ [Event.read_file_subset file_path word_size f.subsetIndex f.subsetSize]
            ++ (if f.verbose > 0
                then [Event.loaded data.len data.alph_size data.word_size] else [])
            ++ [Event.no_entropy, Event.free_data]
        ∧ run.status = -1
        ∧ ∀ e ∈ run.trace, e.is_estimate = false ∧ e.is_bound = false)
    ∧ (2 ≤ data.alph_size →
      ∃ run, main L E read_file_subset opts args = some run
        ∧ run.status = 0
        ∧ Event.no_entropy ∉ run.trace) := by
  have hm := main_eq_of_loaded L E read_file_subset opts args f file_path word_size data
    hopts hargs hread
  constructor
  · intro h1
    rw [main_loaded_degenerate L E f data h1] at hm
    refine ⟨_, hm, ?_, rfl, ?_⟩
    · simp only [List.append_assoc]
    · simp only [List.append_assoc]
      split_ifs <;> simp [Event.is_estimate, Event.is_bound]
  · intro h2
    obtain ⟨e_lit, hl⟩ := estimate_eq_some E (truncate L f.all_bits data) f.verbose false
    obtain ⟨e_bit, hb⟩ := estimate_eq_some E (truncate L f.all_bits data) f.verbose true
    rw [main_loaded_eq L E f data e_lit e_bit h2 hl hb] at hm
    refine ⟨_, hm, rfl, ?_⟩
    simp only [Option.map_some', List.mem_append, not_or]
    refine ⟨⟨?_, ?_⟩, ⟨⟨⟨?_, ?_⟩, ?_⟩, ?_⟩, ?_⟩
    · split_ifs <;> simp
    · simp
    · split_ifs <;> simp
    · exact fun h => (not_bound_of_mem_notes L f _ _ h).2.2 rfl
    · constructor <;> split_ifs <;> simp
    · exact fun h => (not_estimate_of_mem_report _ _ _ _ _ _ h).2 rfl
    · simp

/-- C4 at the sample values: the constant sample set ends the run at the check, the
four-symbol sample set passes it. -/
theorem degenerate_alphabet_short_circuits_witness :
    (sample_constant.alph_size ≤ 1
      ∧ ∃ run, main sample_limits sample_estimators (sample_loader sample_constant) []
            sample_args = some run
        ∧ run.trace =
            (if (Flags.initial sample_limits).verbose > 0 then [Event.opening "data.bin"]
              else [])
            ++ [Event.read_file_subset "data.bin" 8 (Flags.initial sample_limits).subsetIndex
                  (Flags.initial sample_limits).subsetSize]
            ++ (if (Flags.initial sample_limits).verbose > 0
                then [Event.loaded sample_constant.len sample_constant.alph_size
                        sample_constant.word_size] else [])
            ++ [Event.no_entropy, Event.free_data]
        ∧ run.status = -1
        ∧ ∀ e ∈ run.trace, e.is_estimate = false ∧ e.is_bound = false)
    ∧ ((2 : Int) ≤ sample_data.alph_size
      ∧ ∃ run, main sample_limits sample_estimators (sample_loader sample_data) []
            sample_args = some run
        ∧ run.status = 0
        ∧ Event.no_entropy ∉ run.trace) :=
  ⟨⟨by decide,
    (degenerate_alphabet_short_circuits sample_limits sample_estimators
      (sample_loader sample_constant) [] sample_args (Flags.initial sample_limits) "data.bin" 8
      sample_constant rfl rfl rfl).1 (by decide)⟩,
   ⟨by decide,
    (degenerate_alphabet_short_circuits sample_limits sample_estimators
      (sample_loader sample_data) [] sample_args (Flags.initial sample_limits) "data.bin" 8
      sample_data rfl rfl rfl).2 (by decide)⟩⟩

/-! ## C5: a constant sample set -/

/-- C5 fails as stated: for one million bytes `0x00` with `bits_per_symbol = 8` the whole
run is the call of the loader, the "No entropy awarded" line, `free_data` and `exit(-1)`;
no step prints a bound, so no combined bound `0.0` is reported. -/
theorem constant_sample_counterexample :
    sample_constant.alph_size = 1
    ∧ main sample_limits sample_estimators (sample_loader sample_constant) [] sample_args
        = some
            { trace :=
                [Event.read_file_subset "data.bin" 8 (2 ^ 64 - 1) 0, Event.no_entropy,
                 Event.free_data],
              status := -1 }
    ∧ (∀ e ∈ [Event.read_file_subset "data.bin" 8 (2 ^ 64 - 1) 0, Event.no_entropy,
              Event.free_data], e.is_bound = false)
    ∧ (∀ w : Int, Event.min_H_original_H_bitstring w 0 ∉
          [Event.read_file_subset "data.bin" 8 (2 ^ 64 - 1) 0, Event.no_entropy,
           Event.free_data])
    ∧ Event.assessed_min_entropy 0 ∉
          [Event.read_file_subset "data.bin" 8 (2 ^ 64 - 1) 0, Event.no_entropy,
           Event.free_data] := by
  refine ⟨rfl, rfl, ?_, ?_, ?_⟩
  · simp [Event.is_bound]
  · simp
  · simp

/-- C5, amended: for every sample set that `read_file_subset` delivers with
`alphabet_size = 1`, the assessment reports no bound at all: the run prints the "No entropy
awarded" line, calls no estimator, prints no bound and ends with `exit(-1)`. -/
theorem constant_sample_reports_no_bound (L : Limits) (E : Estimators)
    (read_file_subset : String → Int → Nat → Nat → Option data_t)
    (opts : List Opt) (args : List Arg) (f : Flags) (file_path : String) (word_size : Int)
    (data : data_t)
    (hopts : getopt_loop L opts (Flags.initial L) = some f)
    (hargs : parse_args args = Except.ok (file_path, word_size))
    (hread : read_file_subset file_path word_size f.subsetIndex f.subsetSize = some data)
    (hone : data.alph_size = 1) :
    ∃ run, main L E read_file_subset opts args = some run
      ∧ run.status = -1
      ∧ Event.no_entropy ∈ run.trace
      ∧ ∀ e ∈ run.trace, e.is_bound = false ∧ e.is_estimate = false := by
  have hm := main_eq_of_loaded L E read_file_subset opts args f file_path word_size data
    hopts hargs hread
  rw [main_loaded_degenerate L E f data (by omega)] at hm
  refine ⟨_, hm, rfl, ?_, ?_⟩
  · simp
  · simp only [List.append_assoc]
    split_ifs <;> simp [Event.is_estimate, Event.is_bound]

/-- C5, amended, at the sample values: one million bytes `0x00`, `bits_per_symbol = 8`. -/
theorem constant_sample_reports_no_bound_witness :
    getopt_loop sample_limits [] (Flags.initial sample_limits)
        = some (Flags.initial sample_limits)
    ∧ parse_args sample_args = Except.ok ("data.bin", 8)
    ∧ sample_loader sample_constant "data.bin" 8 (Flags.initial sample_limits).subsetIndex
        (Flags.initial sample_limits).subsetSize = some sample_constant
    ∧ sample_constant.alph_size = 1
    ∧ ∃ run, main sample_limits sample_estimators (sample_loader sample_constant) []
          sample_args = some run
      ∧ run.status = -1
      ∧ Event.no_entropy ∈ run.trace
      ∧ ∀ e ∈ run.trace, e.is_bound = false ∧ e.is_estimate = false :=
  ⟨rfl, rfl, rfl, rfl,
   constant_sample_reports_no_bound sample_limits sample_estimators
     (sample_loader sample_constant) [] sample_args (Flags.initial sample_limits) "data.bin" 8
     sample_constant rfl rfl rfl rfl⟩

/-! ## C6: when the bitstring channel is assessed in initial-entropy mode -/

/-- C6: the code departs from the claim, and from the usage text of lines 34-36 ("If
'bits_per_symbol' is greater than 1, the samples are also converted to bitstrings and
assessed to create H_bitstring"). In initial-entropy mode, for a sample set with
`word_size = 8` and `alph_size = 2`, the guard `alph_size > 2` of line 194 skips the
bitstring channel: the only call is the literal-channel `estimate` and `H_bitstring` stays
`1`, although `min(1, estimate(bitstring))` is `1/4`; the run prints `H_original` alone. -/
theorem bitstring_skipped_at_two_valued :
    (Flags.initial sample_limits).initial_entropy = true
    ∧ (2 : Int) ≤ sample_two_valued.alph_size
    ∧ (1 : Int) < sample_two_valued.word_size
    ∧ estimate sample_estimators sample_two_valued 0 true = some (1 / 4)
    ∧ channel_bounds sample_estimators sample_two_valued true 0
        = some (1 / 4, 1, [Event.estimate sample_two_valued 0 false])
    ∧ (1 : ℚ) ≠ min 1 (1 / 4)
    ∧ main_loaded sample_limits sample_estimators (Flags.initial sample_limits)
          sample_two_valued
        = some
            { trace :=
                [Event.warning_few_samples, Event.estimate sample_two_valued 0 false,
                 Event.newline, Event.H_original (1 / 4), Event.free_data],
              status := 0 } := by
  have hb : estimate sample_estimators sample_two_valued 0 true = some (1 / 4) := by
    simp [estimate, entropies, min_element, sample_estimators]
    norm_num
  have hl : estimate sample_estimators sample_two_valued 0 false = some (1 / 4) := by
    simp [estimate, entropies, min_element, sample_estimators, sample_two_valued]
    norm_num
  have ht : truncate sample_limits (Flags.initial sample_limits).all_bits sample_two_valued
      = sample_two_valued := by
    rfl
  refine ⟨rfl, by decide, by decide, hb, ?_, by norm_num, ?_⟩
  · rw [channel_bounds_eq _ _ _ _ _ _ hl hb]
    simp [sample_two_valued]
    norm_num
  · rw [main_loaded_eq _ _ _ _ (1 / 4) (1 / 4) (by decide) (by rw [ht]; exact hl)
      (by rw [ht]; exact hb), ht]
    simp [Flags.initial, sample_two_valued, sample_limits, notes, report]
    norm_num

/-! ## C7: the truncation step and the invariant `blen = len * word_size` -/

/-- C7 fails as stated: with `-t` and `MIN_SIZE` one million, two million 8-bit symbols
(`blen = 16000000 = len * word_size`) are truncated to `len = 1000000` and
`blen = 1000000`, which is not `len * word_size = 8000000`. -/
theorem truncate_breaks_invariant_counterexample :
    sample_long.blen = sample_long.len * sample_long.word_size
    ∧ (truncate sample_limits false sample_long).len = 1000000
    ∧ (truncate sample_limits false sample_long).blen = 1000000
    ∧ (truncate sample_limits false sample_long).word_size = 8
    ∧ ¬ ((truncate sample_limits false sample_long).blen
          = (truncate sample_limits false sample_long).len
            * (truncate sample_limits false sample_long).word_size) := by
  refine ⟨by decide, by decide, by decide, by decide, by decide⟩

/-- C7, amended: for every loaded sample set with `blen = len * word_size`, without `-t`
the sample set is unchanged; with `-t` the two lengths are capped separately, `len` at
`MIN_SIZE` symbols and `blen` at `MIN_SIZE` bits. The truncated sample set, which is the
one passed to every call of `estimate`, still satisfies `blen = len * word_size` when
nothing was cut or `word_size = 1`; with `-t`, `MIN_SIZE > 0` and `word_size ≥ 1` it
satisfies it exactly when `blen ≤ MIN_SIZE` or `word_size = 1`. -/
theorem truncate_invariant (L : Limits) (all_bits : Bool) (data : data_t)
    (hinv : data.blen = data.len * data.word_size) :
    (truncate L all_bits data).len
        = (if all_bits = false then min data.len L.MIN_SIZE else data.len)
    ∧ (truncate L all_bits data).blen
        = (if all_bits = false then min data.blen L.MIN_SIZE else data.blen)
    ∧ (truncate L all_bits data).word_size = data.word_size
    ∧ (all_bits = true → truncate L all_bits data = data)
    ∧ (all_bits = true ∨ (data.blen ≤ L.MIN_SIZE ∧ data.len ≤ L.MIN_SIZE)
          ∨ data.word_size = 1 →
        (truncate L all_bits data).blen
          = (truncate L all_bits data).len * (truncate L all_bits data).word_size)
    ∧ (all_bits = false → 0 < L.MIN_SIZE → 1 ≤ data.word_size →
        ((truncate L all_bits data).blen
            = (truncate L all_bits data).len * (truncate L all_bits data).word_size
          ↔ data.blen ≤ L.MIN_SIZE ∨ data.word_size = 1))
    ∧ (∀ (E : Estimators) (f : Flags) (run : Run), f.all_bits = all_bits →
        main_loaded L E f data = some run →
        ∀ d v b, Event.estimate d v b ∈ run.trace → d = truncate L all_bits data) := by
  have hlen : (truncate L all_bits data).len
      = (if all_bits = false then min data.len L.MIN_SIZE else data.len) := by
    rw [truncate_eq]
    cases all_bits
    · by_cases h : data.len > L.MIN_SIZE
      · simp [h, min_eq_right (le_of_lt h)]
      · simp [h, min_eq_left (not_lt.mp h)]
    · simp
  have hblen : (truncate L all_bits data).blen
      = (if all_bits = false then min data.blen L.MIN_SIZE else data.blen) := by
    rw [truncate_eq]
    cases all_bits
    · by_cases h : data.blen > L.MIN_SIZE
      · simp [h, min_eq_right (le_of_lt h)]
      · simp [h, min_eq_left (not_lt.mp h)]
    · simp
  refine ⟨hlen, hblen, truncate_word_size L all_bits data, ?_, ?_, ?_, ?_⟩
  · intro h
    rw [truncate_eq]
    simp [h]
  · intro h
    rw [hlen, hblen, truncate_word_size]
    cases all_bits
    · rcases h with h | ⟨h1, h2⟩ | h
      · exact absurd h (by decide)
      · simp only [eq_self_iff_true, if_true, min_eq_left h1, min_eq_left h2]
        exact hinv
      · rw [h, mul_one] at hinv
        simp [hinv, h]
    · simpa using hinv
  · intro hf hM hw
    rw [hlen, hblen, truncate_word_size]
    simp only [hf, if_true]
    constructor
    · intro h
      by_contra hcon
      have hcon2 : ¬ data.blen ≤ L.MIN_SIZE ∧ ¬ data.word_size = 1 := not_or.mp hcon
      obtain ⟨hb, hw1⟩ := hcon2
      have hw2 : 2 ≤ data.word_size := by omega
      rw [min_eq_right (by omega : L.MIN_SIZE ≤ data.blen)] at h
      rcases le_total data.len L.MIN_SIZE with hl | hl
      · rw [min_eq_left hl] at h
        omega
      · rw [min_eq_right hl] at h
        have : L.MIN_SIZE * 2 ≤ L.MIN_SIZE * data.word_size :=
          Int.mul_le_mul_of_nonneg_left hw2 (le_of_lt hM)
        omega
    · rintro (hb | hw1)
      · have hl : data.len ≤ L.MIN_SIZE := by
          by_contra hl
          have hl2 : L.MIN_SIZE < data.len := not_le.mp hl
          have : data.len * 1 ≤ data.len * data.word_size :=
            Int.mul_le_mul_of_nonneg_left hw (by omega)
          omega
        rw [min_eq_left hb, min_eq_left hl, hinv]
      · rw [hw1, mul_one] at hinv
        rw [hinv, hw1, mul_one]
  · intro E f run hf hrun d v b hmem
    subst hf
    by_cases h1 : data.alph_size ≤ 1
    · rw [main_loaded_degenerate L E f data h1] at hrun
      cases hrun
      simp only [List.mem_append, List.mem_cons, List.mem_singleton, List.not_mem_nil,
        or_false] at hmem
      rcases hmem with hmem | hmem | hmem
      · split_ifs at hmem <;> simp at hmem
      · cases hmem
      · cases hmem
    · obtain ⟨e_lit, hl⟩ := estimate_eq_some E (truncate L f.all_bits data) f.verbose false
      obtain ⟨e_bit, hb⟩ := estimate_eq_some E (truncate L f.all_bits data) f.verbose true
      rw [main_loaded_eq L E f data e_lit e_bit (by omega) hl hb] at hrun
      cases hrun
      simp only [List.mem_append] at hmem
      rcases hmem with (((hmem | hmem) | (hmem | hmem)) | hmem) | hmem
      · split_ifs at hmem <;> simp at hmem
      · exact absurd (not_bound_of_mem_notes L f _ _ hmem).2.1 (by simp [Event.is_estimate])
      · split_ifs at hmem <;> simp at hmem
        exact hmem.1
      · split_ifs at hmem <;> simp at hmem
        exact hmem.1
      · exact absurd (not_estimate_of_mem_report _ _ _ _ _ _ hmem).1 (by simp [Event.is_estimate])
      · simp at hmem

/-- C7, amended, at the sample values: the four-symbol sample set, which satisfies the
invariant and is shorter than `MIN_SIZE`, keeps it under `-t`. -/
theorem truncate_invariant_witness :
    sample_data.blen = sample_data.len * sample_data.word_size
    ∧ (truncate sample_limits false sample_data).len
        = (if false = false then min sample_data.len sample_limits.MIN_SIZE
            else sample_data.len)
    ∧ (truncate sample_limits false sample_data).blen
        = (truncate sample_limits false sample_data).len
          * (truncate sample_limits false sample_data).word_size :=
  ⟨by decide,
   (truncate_invariant sample_limits false sample_data (by decide)).1,
   (truncate_invariant sample_limits false sample_data (by decide)).2.2.2.2.1
     (Or.inr (Or.inl ⟨by decide, by decide⟩))⟩

end NonIid
